import Mathlib

/-!
Verification of the agent repository: a shallow embedding of the directive
dispatch and tool-transport layer (src/agent/mod.rs, src/mcp_client/mod.rs,
src/model_client/mod.rs) together with proofs of the specified properties.

Conventions of the embedding:
- serde_json values are modelled by the inductive type Json below;
- the tool-server subprocess is an external collaborator, so the line it
  emits on stdout (or the lack of one within the 5 second deadline) enters
  the model as a ReadOutcome argument, given at the level of its serde
  decode outcome;
- filesystem state is an explicit FS value (a path-to-content association
  list plus the set of created directories), paths modelled as component
  lists, mirroring the PathBuf join / parent / create_dir_all / write calls
  of the source;
- Rust panics (unwrap on None, out-of-range slice) are explicit outcomes
  (panicked constructors), never silently dropped.
-/

/-- A model of the serde_json Value type: the JSON data exchanged with the
model endpoint and the tool subprocess. -/
inductive Json where
  | null
  | bool (b : Bool)
  | num (n : Int)
  | str (s : String)
  | arr (elems : List Json)
  | obj (fields : List (String × Json))

/-- Lookup of a key in the field list of a JSON object (first binding wins),
as serde_json object maps behave for the objects at issue. -/
def lookupField : List (String × Json) → String → Option Json
  | [], _ => none
  | e :: rest, key => if e.1 = key then some e.2 else lookupField rest key

/-- Value::get(key) from serde_json: Some binding on objects holding the key,
None on non-objects and missing keys. Used by the response error check
response.get("error") in src/mcp_client/mod.rs. -/
def Json.getField : Json → String → Option Json
  | .obj fields, key => lookupField fields key
  | _, _ => none

/-- The Index impl used by args[key] in the source test handler: a missing
key or a non-object indexes to Null rather than failing. -/
def Json.index (v : Json) (key : String) : Json :=
  (v.getField key).getD .null

/-- Value::as_str: Some for JSON strings, None for every other value. -/
def Json.asStr : Json → Option String
  | .str s => some s
  | _ => none

/-! Model client (src/model_client/mod.rs): the deterministic JSON-extraction
tail of LocalOllamaClient::complete, applied to the text of the response
field returned by the completion endpoint. -/

/-- Result of the extraction step of complete. The panicked case models a
Rust slice-bounds panic. -/
inductive CompleteResult where
  | ok (response : List Char)
  | panicked

/-- str::find(char) of Rust: index of the first occurrence. The text is
modelled as its character list; for the ASCII texts at issue character
indices and Rust byte indices coincide, and the panic condition of the
slice below is equivalent for all UTF-8 texts. -/
def firstIdx (c : Char) : List Char → Option Nat
  | [] => none
  | x :: xs => if x = c then some 0 else (firstIdx c xs).map (fun i => i + 1)

/-- str::rfind(char) of Rust: index of the last occurrence. -/
def lastIdx (c : Char) : List Char → Option Nat
  | [] => none
  | x :: xs =>
    match lastIdx c xs with
    | some j => some (j + 1)
    | none => if x = c then some 0 else none

/-- The Rust slice raw[i..=j], that is raw[i..j+1]: defined when i is at most
j+1 and j+1 is at most the length, a panic (none) otherwise. -/
def sliceIncl (l : List Char) (i j : Nat) : Option (List Char) :=
  if i ≤ j + 1 ∧ j + 1 ≤ l.length then some ((l.drop i).take (j + 1 - i)) else none

/-- LocalOllamaClient::complete, lines 53-68 of src/model_client/mod.rs: if
the raw model text holds a first left brace and a last right brace, return
the inclusive substring between them; if neither or only the closing brace
is found, return the raw text unchanged. An out-of-range substring slice is
a panic. -/
def completeExtract (raw : List Char) : CompleteResult :=
  match firstIdx '{' raw with
  | some i =>
    match lastIdx '}' raw with
    | some j =>
      match sliceIncl raw i j with
      | some s => .ok s
      | none => .panicked
    | none => .ok raw
  | none => .ok raw

/-! MCP client (src/mcp_client/mod.rs): the tool-transport state and its two
call operations, do_request and write_file, plus the Drop teardown. -/

/-- The spawned tool-server subprocess handle (tokio Child): whether the
stdin and stdout handles are piped (they are, after init), and whether the
OS process is still alive. -/
structure Child where
  stdinPiped : Bool
  stdoutPiped : Bool
  alive : Bool
deriving DecidableEq

/-- The MCPClient struct: an optional owned subprocess handle; none before
init has run. -/
structure MCPClient where
  server_process : Option Child
deriving DecidableEq

/-- Environment input to a call: the outcome of the deadline-bounded
read_line on the stdout of the subprocess, given at the level of the serde
decode of the line (the subprocess is an external collaborator, so its
output is an input of the model). timeout: no line arrived within the
5 second deadline; readErr: read_line returned an error; eofLine: zero
bytes were read, the line stays empty; undecodable: a nonempty line that
serde_json::from_str rejects; value v: a nonempty line decoding to v. -/
inductive ReadOutcome where
  | timeout
  | readErr
  | eofLine
  | undecodable
  | value (v : Json)

/-- The anyhow error cases of do_request and write_file, one constructor per
bail site of the source: notReady is the message MCP server not initialized,
noStdin the message Failed to get stdin, ioError a propagated read_line
failure, emptyResponse the message Empty response from MCP server,
malformedResponse a propagated serde decode failure, serverError the message
MCP server error with the payload of the error field, timeout the message
Timeout waiting for MCP server response. -/
inductive MCPError where
  | notReady
  | noStdin
  | ioError
  | emptyResponse
  | malformedResponse
  | serverError (payload : Json)
  | timeout

/-- Observable side effects of a call: writes to the stdin of the
subprocess, the flush, the read attempt on its stdout, and (for
completeness of the no-side-effect statements) a direct filesystem write,
which neither transport call ever emits. -/
inductive IoEvent where
  | wroteStdinLine (request : Json)
  | wroteStdinNewline
  | flushedStdin
  | readStdoutLine
  | wroteFsFile (path : String) (content : String)

/-- MCPClient::do_request, lines 47-94 of src/mcp_client/mod.rs: fail before
init; fetch stdin or fail; write the serialized request, a newline, flush;
then, when a stdout handle exists, read one line bounded by the 5 second
deadline and inspect it: timeout, read error, empty line, undecodable line,
or a decoded value whose error field decides failure or success. The client
value is returned unchanged on every path. -/
def do_request (c : MCPClient) (request : Json) (read : ReadOutcome) :
    Except MCPError Unit × MCPClient × List IoEvent :=
  match c.server_process with
  | none => (.error .notReady, c, [])
  | some child =>
    if child.stdinPiped then
      if child.stdoutPiped then
        match read with
        | .timeout =>
          (.error .timeout, c,
            [.wroteStdinLine request, .wroteStdinNewline, .flushedStdin, .readStdoutLine])
        | .readErr =>
          (.error .ioError, c,
            [.wroteStdinLine request, .wroteStdinNewline, .flushedStdin, .readStdoutLine])
        | .eofLine =>
          (.error .emptyResponse, c,
            [.wroteStdinLine request, .wroteStdinNewline, .flushedStdin, .readStdoutLine])
        | .undecodable =>
          (.error .malformedResponse, c,
            [.wroteStdinLine request, .wroteStdinNewline, .flushedStdin, .readStdoutLine])
        | .value v =>
          match v.getField "error" with
          | some payload =>
            (.error (.serverError payload), c,
              [.wroteStdinLine request, .wroteStdinNewline, .flushedStdin, .readStdoutLine])
          | none =>
            (.ok (), c,
              [.wroteStdinLine request, .wroteStdinNewline, .flushedStdin, .readStdoutLine])
      else
        (.ok (), c, [.wroteStdinLine request, .wroteStdinNewline, .flushedStdin])
    else (.error .noStdin, c, [])

/-- The fixed JSON-RPC envelope built inside MCPClient::write_file, lines
107-118 of src/mcp_client/mod.rs. -/
def writeFileRequest (path content : String) : Json :=
  .obj [("jsonrpc", .str "2.0"),
        ("method", .str "tools/call"),
        ("params", .obj [("name", .str "write_file"),
                         ("arguments", .obj [("path", .str path),
                                             ("content", .str content)])]),
        ("id", .num 1)]

/-- MCPClient::write_file, lines 96-156 of src/mcp_client/mod.rs: the same
body as do_request with the fixed writeFileRequest envelope (the source
duplicates the request and response handling verbatim). -/
def write_file (c : MCPClient) (path content : String) (read : ReadOutcome) :
    Except MCPError Unit × MCPClient × List IoEvent :=
  match c.server_process with
  | none => (.error .notReady, c, [])
  | some child =>
    if child.stdinPiped then
      if child.stdoutPiped then
        match read with
        | .timeout =>
          (.error .timeout, c,
            [.wroteStdinLine (writeFileRequest path content), .wroteStdinNewline,
             .flushedStdin, .readStdoutLine])
        | .readErr =>
          (.error .ioError, c,
            [.wroteStdinLine (writeFileRequest path content), .wroteStdinNewline,
             .flushedStdin, .readStdoutLine])
        | .eofLine =>
          (.error .emptyResponse, c,
            [.wroteStdinLine (writeFileRequest path content), .wroteStdinNewline,
             .flushedStdin, .readStdoutLine])
        | .undecodable =>
          (.error .malformedResponse, c,
            [.wroteStdinLine (writeFileRequest path content), .wroteStdinNewline,
             .flushedStdin, .readStdoutLine])
        | .value v =>
          match v.getField "error" with
          | some payload =>
            (.error (.serverError payload), c,
              [.wroteStdinLine (writeFileRequest path content), .wroteStdinNewline,
               .flushedStdin, .readStdoutLine])
          | none =>
            (.ok (), c,
              [.wroteStdinLine (writeFileRequest path content), .wroteStdinNewline,
               .flushedStdin, .readStdoutLine])
      else
        (.ok (), c,
          [.wroteStdinLine (writeFileRequest path content), .wroteStdinNewline, .flushedStdin])
    else (.error .noStdin, c, [])

/-- The statement let uscore = child.kill() in the Drop impl, lines 11-18 of
src/mcp_client/mod.rs: kill on a tokio Child is an async fn, so calling it
merely constructs a future; binding the future to the wildcard pattern drops
it without ever polling it, and a never-polled future performs none of its
effects. The subprocess state is therefore unchanged: no kill signal is
sent. -/
def killUnpolled (ch : Child) : Child := ch

/-- Drop for MCPClient, lines 11-18 of src/mcp_client/mod.rs: take the owned
subprocess handle out of the struct, if one is held, and evaluate the
discarded kill-future statement on it. Returns the dropped client (handle
taken) together with the final state of the subprocess it held, if any. -/
def dropHandle (c : MCPClient) : MCPClient × Option Child :=
  match c.server_process with
  | none => ({ server_process := none }, none)
  | some child => ({ server_process := none }, some (killUnpolled child))

/-! Agent (src/agent/mod.rs): the directive data model, the local write_file
dispatch handler (the MCPServer impl of the acceptance test, lines 74-91,
cited by the claims), and run_once. -/

/-- One parsed directive: an action name plus a JSON argument mapping,
the MCPRequest struct of src/agent/mod.rs. -/
structure MCPRequest where
  action : String
  args : Json

/-- Filesystem state: an association list from paths (component lists) to
file contents, plus the list of directories created so far. -/
structure FS where
  files : List (List String × String)
  dirs : List (List String)
deriving DecidableEq

/-- The empty filesystem. -/
def emptyFS : FS := { files := [], dirs := [] }

/-- Outcome of one dispatched directive: Ok, a returned anyhow error with
its message, or a Rust panic. -/
inductive HandleResult where
  | ok
  | errMsg (m : String)
  | panicked
deriving DecidableEq

/-- Split a character list at every slash, for the component view of the
string paths handed to PathBuf::join. -/
def splitOnSlash : List Char → List (List Char)
  | [] => [[]]
  | c :: cs =>
    if c = '/' then [] :: splitOnSlash cs
    else
      match splitOnSlash cs with
      | [] => [[c]]
      | r :: rs => (c :: r) :: rs

/-- The component list of a relative path string. -/
def splitPath (p : String) : List String :=
  (splitOnSlash p.data).map (fun l => String.mk l)

/-- Path::parent on the component view: none for the empty path, otherwise
the path with its last component removed. -/
def parentOf : List String → Option (List String)
  | [] => none
  | l => some l.dropLast

/-- All nonempty ancestor paths of a directory, innermost last: the chains of
directories that create_dir_all brings into existence. -/
def ancestors (d : List String) : List (List String) :=
  (List.range d.length).map (fun i => d.take (i + 1))

/-- Record one directory as existing, once. -/
def addDir (d : List String) (dirs : List (List String)) : List (List String) :=
  if d ∈ dirs then dirs else dirs ++ [d]

/-- std::fs::create_dir_all on the model: record the directory and every
ancestor of it as existing. -/
def create_dir_all (d : List String) (fs : FS) : FS :=
  { fs with dirs := (ancestors d).foldl (fun acc q => addDir q acc) fs.dirs }

/-- Remove every entry of a path from the file list. -/
def removeFile (p : List String) : List (List String × String) → List (List String × String)
  | [] => []
  | e :: rest => if e.1 = p then removeFile p rest else e :: removeFile p rest

/-- std::fs::write on the model: a full truncating replace of the content
stored at the path (not an append). -/
def fsWrite (p : List String) (content : String) (fs : FS) : FS :=
  { fs with files := (p, content) :: removeFile p fs.files }

/-- Content stored at a path, if any. -/
def findFile (p : List String) : List (List String × String) → Option String
  | [] => none
  | e :: rest => if e.1 = p then some e.2 else findFile p rest

/-- Read accessor on the filesystem model. -/
def readFile (fs : FS) (p : List String) : Option String :=
  findFile p fs.files

/-- MCPServer::handle_request of the acceptance test, lines 74-91 of
src/agent/mod.rs: on the write_file action, index the path and content
arguments (as_str().unwrap() panics when either is missing or not a
string), join the path onto the owned temp directory, create the parent
directory chain if the path has a parent, then write the content; any
other action returns the Unsupported MCP action error. -/
def handle_request (tempDir : List String) (fs : FS) (req : MCPRequest) :
    HandleResult × FS :=
  if req.action = "write_file" then
    match (req.args.index "path").asStr with
    | none => (.panicked, fs)
    | some p =>
      match (req.args.index "content").asStr with
      | none => (.panicked, fs)
      | some content =>
        match parentOf (tempDir ++ splitPath p) with
        | some parent =>
          (.ok, fsWrite (tempDir ++ splitPath p) content (create_dir_all parent fs))
        | none => (.ok, fsWrite (tempDir ++ splitPath p) content fs)
  else (.errMsg ("Unsupported MCP action: " ++ req.action), fs)

/-- The dispatch loop of run_once, lines 54-57 of src/agent/mod.rs: execute
the parsed requests in order, stopping at the first one that does not
return Ok (the question-mark operator returns the error; a panic aborts);
the filesystem reached so far is kept in either case. -/
def dispatchAll (tempDir : List String) (fs : FS) : List MCPRequest → HandleResult × FS
  | [] => (.ok, fs)
  | r :: rs =>
    match handle_request tempDir fs r with
    | (.ok, fs2) => dispatchAll tempDir fs2 rs
    | (.errMsg m, fs2) => (.errMsg m, fs2)
    | (.panicked, fs2) => (.panicked, fs2)

/-- The model reply as returned by ModelClient::complete: the struct
ModelResponse of src/model_client/mod.rs with its response text. -/
structure Reply where
  response : String

/-- Outcome of the serde decode of the reply text into the directive schema
(the serde_json::from_str call of run_once, line 44 of src/agent/mod.rs),
supplied as an argument: ok with the parsed request list, or fail with the
serde error message. -/
inductive DecodeOutcome where
  | ok (reqs : List MCPRequest)
  | fail (e : String)

/-- Outcome of run_once: Ok, a returned anyhow error with its message, or a
propagated panic. -/
inductive RunResult where
  | ok
  | errMsg (m : String)
  | panicked
deriving DecidableEq

/-- Agent::run_once, lines 39-60 of src/agent/mod.rs, after the model call
returned the reply: on decode failure, print the two diagnostic lines to
stderr (the returned log) and return the fixed error message Invalid JSON
response from model; on decode success, dispatch every request in order
through handle_request, stopping at the first failure. The third component
is the stderr output of run_once itself. -/
def run_once (reply : Reply) (decode : DecodeOutcome) (tempDir : List String) (fs : FS) :
    RunResult × FS × List String :=
  match decode with
  | .fail e =>
    (.errMsg "Invalid JSON response from model", fs,
      ["Failed to parse model response: " ++ e, "Raw response: " ++ reply.response])
  | .ok reqs =>
    match dispatchAll tempDir fs reqs with
    | (.ok, fs2) => (.ok, fs2, [])
    | (.errMsg m, fs2) => (.errMsg m, fs2, [])
    | (.panicked, fs2) => (.panicked, fs2, [])

/-- Whether the character list needle occurs at the head of the haystack. -/
def beginsWith : List Char → List Char → Bool
  | _, [] => true
  | [], _ :: _ => false
  | c :: cs, d :: ds => c == d && beginsWith cs ds

/-- Whether the character list needle occurs contiguously anywhere in the
haystack. -/
def containsSeq : List Char → List Char → Bool
  | [], needle => beginsWith [] needle
  | hay :: rest, needle => beginsWith (hay :: rest) needle || containsSeq rest needle

/-- Whether an error message carries a raw text: the raw text occurs inside
the message. -/
def carries (err raw : String) : Bool :=
  containsSeq err.data raw.data

/-- Whether a dispatch outcome is a returned error value (as opposed to Ok or
a panic). -/
def returnsErr : HandleResult → Bool
  | .errMsg _ => true
  | _ => false

/-- A client after a successful init: subprocess handle held, both pipes
attached, process alive. -/
def readyClient : MCPClient :=
  { server_process := some { stdinPiped := true, stdoutPiped := true, alive := true } }

/-! Theorems. -/

/-- Claim C2 (code bug evaluation): dropping an MCPClient that holds a live
subprocess leaves the subprocess alive: the Drop impl constructs the async
kill future and discards it unpolled, so no kill signal is ever sent, while
the claim (and the comment in the source) says the subprocess is forcibly
terminated. -/
theorem C2_drop_leaves_subprocess_alive :
    (dropHandle readyClient).2 = some { stdinPiped := true, stdoutPiped := true, alive := true } ∧
    (dropHandle readyClient).2.map Child.alive = some true :=
  ⟨rfl, rfl⟩

/-- Claim C3: a call issued before init has succeeded (no subprocess handle
held) fails with the not-initialized error, emits no subprocess or
filesystem event at all, and leaves the transport state unchanged; both for
do_request and for write_file. -/
theorem C3_call_before_init_no_io (c : MCPClient) (request : Json) (path content : String)
    (read : ReadOutcome) (hc : c.server_process = none) :
    do_request c request read = (.error .notReady, c, []) ∧
    write_file c path content read = (.error .notReady, c, []) := by
  constructor <;> simp [do_request, write_file, hc]

/-- Witness for claim C3 at a concrete uninitialized client. -/
theorem C3_call_before_init_no_io_witness :
    do_request { server_process := none } (Json.obj []) ReadOutcome.timeout =
      (.error .notReady, { server_process := none }, []) ∧
    write_file { server_process := none } "a" "b" ReadOutcome.timeout =
      (.error .notReady, { server_process := none }, []) :=
  C3_call_before_init_no_io { server_process := none } (Json.obj []) "a" "b"
    ReadOutcome.timeout rfl

/-- Claim C1 (amended): when the subprocess emits no line within the
deadline, the call fails with the timeout error, but the transport records
no failed state: the client value is returned unchanged (the subprocess
handle is still held), and every call on that same client still performs
subprocess I/O. -/
theorem C1_timeout_no_failed_state (c : MCPClient) (child : Child) (request : Json)
    (path content : String)
    (hc : c.server_process = some child) (hin : child.stdinPiped = true)
    (hout : child.stdoutPiped = true) :
    do_request c request .timeout =
      (.error .timeout, c,
        [.wroteStdinLine request, .wroteStdinNewline, .flushedStdin, .readStdoutLine]) ∧
    write_file c path content .timeout =
      (.error .timeout, c,
        [.wroteStdinLine (writeFileRequest path content), .wroteStdinNewline, .flushedStdin,
         .readStdoutLine]) ∧
    ∀ request2 read2, (do_request c request2 read2).2.2 ≠ [] := by
  refine ⟨by simp [do_request, hc, hin, hout], by simp [write_file, hc, hin, hout], ?_⟩
  intro request2 read2
  cases read2 <;> simp [do_request, hc, hin, hout]
  case value v => cases h : v.getField "error" <;> simp [h]

/-- Witness for claim C1 (amended) at a concrete ready client. -/
theorem C1_timeout_no_failed_state_witness :
    do_request readyClient (Json.obj []) ReadOutcome.timeout =
      (.error .timeout, readyClient,
        [.wroteStdinLine (Json.obj []), .wroteStdinNewline, .flushedStdin, .readStdoutLine]) ∧
    (do_request readyClient (Json.obj []) (ReadOutcome.value (Json.obj []))).2.2 ≠ [] := by
  have h := C1_timeout_no_failed_state readyClient
    { stdinPiped := true, stdoutPiped := true, alive := true } (Json.obj []) "p" "c" rfl rfl rfl
  exact ⟨h.1, h.2.2 (Json.obj []) (ReadOutcome.value (Json.obj []))⟩

/-- Claim C1 (counterexample): after a timed-out call on a ready client, the
client is unchanged rather than failed, and a subsequent call on the same
instance performs I/O and succeeds, contradicting the claim that every
subsequent call fails without performing I/O. -/
theorem C1_counterexample :
    (do_request readyClient (Json.obj []) ReadOutcome.timeout).1 =
      Except.error MCPError.timeout ∧
    (do_request readyClient (Json.obj []) ReadOutcome.timeout).2.1 = readyClient ∧
    (do_request ((do_request readyClient (Json.obj []) ReadOutcome.timeout).2.1) (Json.obj [])
        (ReadOutcome.value (Json.obj []))).1 = Except.ok () ∧
    (do_request ((do_request readyClient (Json.obj []) ReadOutcome.timeout).2.1) (Json.obj [])
        (ReadOutcome.value (Json.obj []))).2.2 =
      [IoEvent.wroteStdinLine (Json.obj []), IoEvent.wroteStdinNewline, IoEvent.flushedStdin,
       IoEvent.readStdoutLine] :=
  ⟨rfl, rfl, rfl, rfl⟩

/-- Claim C6: a response line that decodes as structured data carrying an
error field fails the call with the server error and that payload; without
an error field the call succeeds and the transport is returned unchanged,
still holding its subprocess handle; both for do_request and write_file. -/
theorem C6_error_field_dispatch (c : MCPClient) (child : Child) (request v payload : Json)
    (path content : String)
    (hc : c.server_process = some child) (hin : child.stdinPiped = true)
    (hout : child.stdoutPiped = true) :
    (v.getField "error" = some payload →
      do_request c request (.value v) =
        (.error (.serverError payload), c,
          [.wroteStdinLine request, .wroteStdinNewline, .flushedStdin, .readStdoutLine]) ∧
      write_file c path content (.value v) =
        (.error (.serverError payload), c,
          [.wroteStdinLine (writeFileRequest path content), .wroteStdinNewline, .flushedStdin,
           .readStdoutLine])) ∧
    (v.getField "error" = none →
      do_request c request (.value v) =
        (.ok (), c,
          [.wroteStdinLine request, .wroteStdinNewline, .flushedStdin, .readStdoutLine]) ∧
      write_file c path content (.value v) =
        (.ok (), c,
          [.wroteStdinLine (writeFileRequest path content), .wroteStdinNewline, .flushedStdin,
           .readStdoutLine])) := by
  constructor <;> intro h <;>
    exact ⟨by simp [do_request, hc, hin, hout, h], by simp [write_file, hc, hin, hout, h]⟩

/-- Witness for claim C6: a response with an error field fails with that
payload, one without succeeds, on a concrete ready client. -/
theorem C6_error_field_dispatch_witness :
    do_request readyClient (Json.obj [])
        (ReadOutcome.value (Json.obj [("error", Json.str "boom")])) =
      (.error (.serverError (Json.str "boom")), readyClient,
        [.wroteStdinLine (Json.obj []), .wroteStdinNewline, .flushedStdin, .readStdoutLine]) ∧
    do_request readyClient (Json.obj [])
        (ReadOutcome.value (Json.obj [("result", Json.null)])) =
      (.ok (), readyClient,
        [.wroteStdinLine (Json.obj []), .wroteStdinNewline, .flushedStdin, .readStdoutLine]) := by
  have h1 := C6_error_field_dispatch readyClient
    { stdinPiped := true, stdoutPiped := true, alive := true }
    (Json.obj []) (Json.obj [("error", Json.str "boom")]) (Json.str "boom") "p" "c" rfl rfl rfl
  have h2 := C6_error_field_dispatch readyClient
    { stdinPiped := true, stdoutPiped := true, alive := true }
    (Json.obj []) (Json.obj [("result", Json.null)]) (Json.str "boom") "p" "c" rfl rfl rfl
  exact ⟨(h1.1 rfl).1, (h2.2 rfl).1⟩

/-- Claim C5 (amended): when the reply text does not decode as the directive
schema, run_once fails with the fixed error message Invalid JSON response
from model; the original raw model text is printed to stderr for
diagnostics, not carried inside the returned error value. -/
theorem C5_parse_failure_fixed_error (reply : Reply) (e : String) (tempDir : List String)
    (fs : FS) :
    run_once reply (.fail e) tempDir fs =
      (.errMsg "Invalid JSON response from model", fs,
        ["Failed to parse model response: " ++ e, "Raw response: " ++ reply.response]) := rfl

/-- Claim C5 (counterexample): at a concrete undecodable reply the returned
error value is the fixed message, which does not carry the raw model text. -/
theorem C5_counterexample :
    (run_once { response := "here is prose with no json at all" }
        (DecodeOutcome.fail "expected value at line 1 column 1") [] emptyFS).1 =
      RunResult.errMsg "Invalid JSON response from model" ∧
    carries "Invalid JSON response from model" "here is prose with no json at all" = false :=
  ⟨rfl, by decide⟩

/-- Claim C7 (amended): a write_file directive whose path or content argument
is missing or not a string makes the dispatch handler panic (unwrap on
None) rather than return a typed error, and it writes nothing: the
filesystem is unchanged. -/
theorem C7_missing_args_panics (tempDir : List String) (fs : FS) (req : MCPRequest)
    (ha : req.action = "write_file")
    (h : (req.args.index "path").asStr = none ∨ (req.args.index "content").asStr = none) :
    handle_request tempDir fs req = (HandleResult.panicked, fs) := by
  rcases h with h | h
  · simp [handle_request, ha, h]
  · cases hp : (req.args.index "path").asStr with
    | none => simp [handle_request, ha, hp]
    | some p => simp [handle_request, ha, hp, h]

/-- Witness for claim C7 (amended): a write_file directive with no arguments
panics and leaves the filesystem unchanged. -/
theorem C7_missing_args_panics_witness :
    handle_request [] emptyFS { action := "write_file", args := Json.obj [] } =
      (HandleResult.panicked, emptyFS) :=
  C7_missing_args_panics [] emptyFS { action := "write_file", args := Json.obj [] } rfl
    (Or.inl rfl)

/-- Claim C7 (counterexample): on a write_file directive with no arguments
the dispatch outcome is a panic, not a returned error value, refuting the
claim that it fails with a returned ArgumentError. -/
theorem C7_counterexample :
    handle_request [] emptyFS { action := "write_file", args := Json.obj [] } =
      (HandleResult.panicked, emptyFS) ∧
    returnsErr (handle_request [] emptyFS
        { action := "write_file", args := Json.obj [] }).1 = false :=
  ⟨rfl, rfl⟩

/-- Claim C10: on the text with a closing brace before the only opening brace
the extraction of complete computes a first opening brace at index 2 and a
last closing brace at index 0 and then panics on the reversed slice instead
of returning a result or an error. -/
theorem C10_reversed_braces_panics :
    firstIdx '{' ['}', 'x', '{'] = some 2 ∧
    lastIdx '}' ['}', 'x', '{'] = some 0 ∧
    completeExtract ['}', 'x', '{'] = CompleteResult.panicked :=
  ⟨rfl, rfl, rfl⟩

/-! Helper lemmas for the extraction theorem (claim C4). -/

theorem firstIdx_append_cons (c : Char) (a t : List Char) (ha : c ∉ a) :
    firstIdx c (a ++ c :: t) = some a.length := by
  induction a with
  | nil => simp [firstIdx]
  | cons x xs ih =>
    have hx : ¬ x = c := by rintro rfl; exact ha (List.mem_cons_self x xs)
    have ha2 : c ∉ xs := fun h => ha (List.mem_cons_of_mem x h)
    simp [firstIdx, hx, ih ha2]

theorem lastIdx_eq_none (c : Char) (b : List Char) (hb : c ∉ b) : lastIdx c b = none := by
  induction b with
  | nil => rfl
  | cons x xs ih =>
    have hx : ¬ x = c := by rintro rfl; exact hb (List.mem_cons_self x xs)
    have hb2 : c ∉ xs := fun h => hb (List.mem_cons_of_mem x h)
    simp [lastIdx, ih hb2, hx]

theorem lastIdx_append_cons (c : Char) (s b : List Char) (hb : c ∉ b) :
    lastIdx c (s ++ c :: b) = some s.length := by
  induction s with
  | nil => simp [lastIdx, lastIdx_eq_none c b hb]
  | cons x xs ih => simp [lastIdx, ih]

/-- Claim C4: on a reply made of brace-free leading noise, one object text
delimited by an opening and a closing brace, and brace-free trailing noise,
the extraction of complete finds the first opening brace and the last
closing brace and returns exactly the object text between them (inclusive),
so the subsequent decode sees exactly that object. -/
theorem C4_extract_json_between_braces (a mid b : List Char)
    (ha : '{' ∉ a) (hb : '}' ∉ b) :
    completeExtract (a ++ ('{' :: mid ++ ['}']) ++ b) =
      CompleteResult.ok ('{' :: mid ++ ['}']) := by
  have e1 : a ++ ('{' :: mid ++ ['}']) ++ b = a ++ '{' :: (mid ++ '}' :: b) := by simp
  have h1 : firstIdx '{' (a ++ ('{' :: mid ++ ['}']) ++ b) = some a.length := by
    rw [e1]; exact firstIdx_append_cons '{' a _ ha
  have e2 : a ++ ('{' :: mid ++ ['}']) ++ b = (a ++ '{' :: mid) ++ '}' :: b := by simp
  have h2 : lastIdx '}' (a ++ ('{' :: mid ++ ['}']) ++ b) = some (a.length + mid.length + 1) := by
    rw [e2, lastIdx_append_cons '}' _ b hb]
    simp [List.length_append]
    omega
  have hslice : sliceIncl (a ++ ('{' :: mid ++ ['}']) ++ b) a.length (a.length + mid.length + 1)
      = some ('{' :: mid ++ ['}']) := by
    unfold sliceIncl
    rw [if_pos]
    · have harith : a.length + mid.length + 1 + 1 - a.length = ('{' :: mid ++ ['}']).length := by
        simp [List.length_append]
        omega
      rw [List.append_assoc, List.drop_left, harith, List.take_left]
    · constructor
      · omega
      · simp [List.length_append]
        omega
  simp only [completeExtract, h1, h2, hslice]

/-- Witness for claim C4 at a concrete noisy reply. -/
theorem C4_extract_json_between_braces_witness :
    completeExtract ("Sure: ".data ++ ('{' :: "\"a\":1".data ++ ['}']) ++ " done".data) =
      CompleteResult.ok ('{' :: "\"a\":1".data ++ ['}']) :=
  C4_extract_json_between_braces "Sure: ".data "\"a\":1".data " done".data
    (by decide) (by decide)

/-! Helper lemmas for the filesystem model (claims C8 and C9). -/

theorem addDir_of_mem (d : List String) (L : List (List String)) (h : d ∈ L) :
    addDir d L = L := by
  simp [addDir, h]

theorem mem_addDir_of_mem (x d : List String) (L : List (List String)) (h : x ∈ L) :
    x ∈ addDir d L := by
  unfold addDir; split
  · exact h
  · exact List.mem_append_left _ h

theorem mem_addDir_self (d : List String) (L : List (List String)) : d ∈ addDir d L := by
  unfold addDir; split
  · assumption
  · exact List.mem_append_right _ (List.mem_singleton.mpr rfl)

theorem mem_foldl_addDir_of_mem_init (x : List String) (ds : List (List String))
    (L : List (List String)) (h : x ∈ L) :
    x ∈ ds.foldl (fun acc q => addDir q acc) L := by
  induction ds generalizing L with
  | nil => exact h
  | cons d ds ih => exact ih (addDir d L) (mem_addDir_of_mem x d L h)

theorem mem_foldl_addDir_of_mem (x : List String) (ds : List (List String))
    (L : List (List String)) (h : x ∈ ds) :
    x ∈ ds.foldl (fun acc q => addDir q acc) L := by
  induction ds generalizing L with
  | nil => cases h
  | cons d ds ih =>
    rcases List.mem_cons.mp h with rfl | h2
    · exact mem_foldl_addDir_of_mem_init x ds (addDir x L) (mem_addDir_self x L)
    · exact ih (addDir d L) h2

theorem foldl_addDir_of_all_mem (ds : List (List String)) (L : List (List String))
    (h : ∀ x ∈ ds, x ∈ L) : ds.foldl (fun acc q => addDir q acc) L = L := by
  induction ds with
  | nil => rfl
  | cons d ds ih =>
    rw [List.foldl_cons, addDir_of_mem d L (h d (List.mem_cons_self d ds))]
    exact ih (fun x hx => h x (List.mem_cons_of_mem d hx))

theorem mem_dirs_create_dir_all (d : List String) (fs : FS) (x : List String)
    (hx : x ∈ ancestors d) : x ∈ (create_dir_all d fs).dirs :=
  mem_foldl_addDir_of_mem x (ancestors d) fs.dirs hx

theorem mem_ancestors_self (d : List String) (hd : d ≠ []) : d ∈ ancestors d := by
  unfold ancestors
  refine List.mem_map.mpr ⟨d.length - 1, List.mem_range.mpr ?_, ?_⟩
  · cases d with
    | nil => exact absurd rfl hd
    | cons x xs => simp
  · cases d with
    | nil => exact absurd rfl hd
    | cons x xs =>
      have h1 : (x :: xs).length - 1 + 1 = (x :: xs).length := by simp
      rw [h1, List.take_length]

theorem create_dir_all_self_mem (d : List String) (fs : FS) (hd : d ≠ []) :
    d ∈ (create_dir_all d fs).dirs :=
  mem_dirs_create_dir_all d fs d (mem_ancestors_self d hd)

theorem create_dir_all_eq_of_sub (d : List String) (fs : FS)
    (h : ∀ x ∈ ancestors d, x ∈ fs.dirs) : create_dir_all d fs = fs := by
  cases fs with
  | mk files dirs => simp [create_dir_all, foldl_addDir_of_all_mem (ancestors d) dirs h]

theorem removeFile_idem (p : List String) (l : List (List String × String)) :
    removeFile p (removeFile p l) = removeFile p l := by
  induction l with
  | nil => rfl
  | cons e rest ih =>
    by_cases he : e.1 = p
    · simp [removeFile, he, ih]
    · simp [removeFile, he, ih]

theorem fsWrite_dirs (p : List String) (content : String) (fs : FS) :
    (fsWrite p content fs).dirs = fs.dirs := rfl

theorem readFile_fsWrite (p : List String) (content : String) (fs : FS) :
    readFile (fsWrite p content fs) p = some content := by
  simp [readFile, fsWrite, findFile]

theorem fsWrite_idem (p : List String) (content : String) (fs : FS) :
    fsWrite p content (fsWrite p content fs) = fsWrite p content fs := by
  cases fs with
  | mk files dirs => simp [fsWrite, removeFile, removeFile_idem]

theorem parentOf_eq_dropLast (l q : List String) (h : parentOf l = some q) :
    q = l.dropLast := by
  cases l with
  | nil => simp [parentOf] at h
  | cons x xs => simp [parentOf] at h; exact h.symm

/-- Claim C8: for a valid write_file directive (string path and content
present), dispatch succeeds; afterwards the target file stores exactly the
supplied content, the parent directory of the target path exists (or is the
base of the owned directory itself), and dispatching the same directive a
second time returns the same final filesystem state: the write is
idempotent, not an append. -/
theorem C8_write_file_content_parent_idempotent (tempDir : List String) (fs : FS)
    (req : MCPRequest) (p content : String)
    (ha : req.action = "write_file")
    (hp : (req.args.index "path").asStr = some p)
    (hc : (req.args.index "content").asStr = some content) :
    ∃ fs2,
      handle_request tempDir fs req = (.ok, fs2) ∧
      readFile fs2 (tempDir ++ splitPath p) = some content ∧
      ((tempDir ++ splitPath p).dropLast = [] ∨
        (tempDir ++ splitPath p).dropLast ∈ fs2.dirs) ∧
      handle_request tempDir fs2 req = (.ok, fs2) := by
  cases hpar : parentOf (tempDir ++ splitPath p) with
  | none =>
    have hnil : tempDir ++ splitPath p = [] := by
      cases hl : tempDir ++ splitPath p with
      | nil => rfl
      | cons x xs => rw [hl] at hpar; simp [parentOf] at hpar
    refine ⟨fsWrite (tempDir ++ splitPath p) content fs, ?_, ?_, ?_, ?_⟩
    · simp [handle_request, ha, hp, hc, hpar]
    · exact readFile_fsWrite _ content fs
    · left; rw [hnil]; rfl
    · simp [handle_request, ha, hp, hc, hpar, fsWrite_idem]
  | some par =>
    have hpl : par = (tempDir ++ splitPath p).dropLast :=
      parentOf_eq_dropLast _ par hpar
    refine ⟨fsWrite (tempDir ++ splitPath p) content (create_dir_all par fs), ?_, ?_, ?_, ?_⟩
    · simp [handle_request, ha, hp, hc, hpar]
    · exact readFile_fsWrite _ content _
    · by_cases hparnil : par = []
      · left; rw [← hpl, hparnil]
      · right
        rw [← hpl, fsWrite_dirs]
        exact create_dir_all_self_mem par fs hparnil
    · have hsub : ∀ x ∈ ancestors par,
          x ∈ (fsWrite (tempDir ++ splitPath p) content (create_dir_all par fs)).dirs := by
        intro x hx
        rw [fsWrite_dirs]
        exact mem_dirs_create_dir_all par fs x hx
      simp [handle_request, ha, hp, hc, hpar]
      rw [create_dir_all_eq_of_sub par _ hsub, fsWrite_idem]

/-- Witness for claim C8 at a concrete valid directive. -/
theorem C8_write_file_content_parent_idempotent_witness :
    ∃ fs2,
      handle_request ["tmp"] emptyFS
          { action := "write_file",
            args := Json.obj [("path", Json.str "a/b.txt"), ("content", Json.str "hi")] } =
        (.ok, fs2) ∧
      readFile fs2 (["tmp"] ++ splitPath "a/b.txt") = some "hi" ∧
      ((["tmp"] ++ splitPath "a/b.txt").dropLast = [] ∨
        (["tmp"] ++ splitPath "a/b.txt").dropLast ∈ fs2.dirs) ∧
      handle_request ["tmp"] fs2
          { action := "write_file",
            args := Json.obj [("path", Json.str "a/b.txt"), ("content", Json.str "hi")] } =
        (.ok, fs2) :=
  C8_write_file_content_parent_idempotent ["tmp"] emptyFS
    { action := "write_file",
      args := Json.obj [("path", Json.str "a/b.txt"), ("content", Json.str "hi")] }
    "a/b.txt" "hi" rfl (by decide) (by decide)

theorem dispatchAll_cons (tempDir : List String) (fs : FS) (r : MCPRequest)
    (rs : List MCPRequest) :
    dispatchAll tempDir fs (r :: rs) =
      match handle_request tempDir fs r with
      | (.ok, fs2) => dispatchAll tempDir fs2 rs
      | (.errMsg m, fs2) => (.errMsg m, fs2)
      | (.panicked, fs2) => (.panicked, fs2) := rfl

theorem dispatchAll_ok_append (tempDir : List String) (fs fs1 : FS)
    (l1 l2 : List MCPRequest) (h : dispatchAll tempDir fs l1 = (.ok, fs1)) :
    dispatchAll tempDir fs (l1 ++ l2) = dispatchAll tempDir fs1 l2 := by
  induction l1 generalizing fs with
  | nil =>
    simp [dispatchAll] at h
    simp [h]
  | cons r l1 ih =>
    rw [List.cons_append, dispatchAll_cons]
    rw [dispatchAll_cons] at h
    rcases hr : handle_request tempDir fs r with ⟨res, fs2⟩
    rw [hr] at h
    cases res with
    | ok => exact ih fs2 h
    | errMsg m => simp at h
    | panicked => simp at h

/-- Claim C9: when one parsed reply yields a sequence of directives and the
directive after the successful ones fails, run_once returns exactly that
failure, the filesystem effects of the directives before it persist, and
the directives after it are never executed: the result is independent of
them. -/
theorem C9_abort_on_first_failure (reply : Reply) (tempDir : List String) (fs fs1 fs2 : FS)
    (pre post : List MCPRequest) (bad : MCPRequest) (m : String)
    (hpre : dispatchAll tempDir fs pre = (.ok, fs1))
    (hbad : handle_request tempDir fs1 bad = (.errMsg m, fs2)) :
    run_once reply (.ok (pre ++ bad :: post)) tempDir fs = (.errMsg m, fs2, []) := by
  have hd : dispatchAll tempDir fs (pre ++ bad :: post) = (.errMsg m, fs2) := by
    rw [dispatchAll_ok_append tempDir fs fs1 pre (bad :: post) hpre]
    simp [dispatchAll, hbad]
  simp [run_once, hd]

/-- Witness for claim C9: a valid write, then an unsupported action, then
another write; run_once stops at the unsupported action, the first write
persists, the third directive is never executed. -/
theorem C9_abort_on_first_failure_witness :
    run_once { response := "r" }
      (DecodeOutcome.ok
        ([{ action := "write_file",
            args := Json.obj [("path", Json.str "out/a.txt"), ("content", Json.str "hi")] }] ++
          { action := "read_file", args := Json.obj [] } ::
          [{ action := "write_file",
             args := Json.obj [("path", Json.str "out/b.txt"), ("content", Json.str "no")] }]))
      [] emptyFS =
      (.errMsg "Unsupported MCP action: read_file",
        { files := [(["out", "a.txt"], "hi")], dirs := [["out"]] }, []) := by
  refine C9_abort_on_first_failure { response := "r" } [] emptyFS
    { files := [(["out", "a.txt"], "hi")], dirs := [["out"]] }
    { files := [(["out", "a.txt"], "hi")], dirs := [["out"]] }
    [{ action := "write_file",
       args := Json.obj [("path", Json.str "out/a.txt"), ("content", Json.str "hi")] }]
    [{ action := "write_file",
       args := Json.obj [("path", Json.str "out/b.txt"), ("content", Json.str "no")] }]
    { action := "read_file", args := Json.obj [] } "Unsupported MCP action: read_file"
    (by decide) (by decide)
